import Mathlib

/-!
Shallow embedding of the n8nctl CLI (Go) and proofs about its claims.

The embedding follows the modularized implementation:
`entities/entities.go` (the static registry), the entities command handlers
(`HandleEntityCommand`, `handleGenericEntityAction`, `n8nAPIRequest`,
`HandleLogin`), `utils/io.go` and the `workflows` package
(`GenerateStarterWorkflowYAML`, `PreviewWorkflowJSONWithPrompt`,
`DiffWorkflowJSON`, `injectEnvVariables`, `injectJSCode`, `LoadDotEnv`),
and `config` (`Config`).

Strings are modelled as Lean `String` (lists of characters); the process
environment (file system contents, the stdin the prompts read, the external
`yq`/`diff` processes and the HTTP transport) is passed explicitly as an
`Env` record of oracles.  Side effects are reflected in explicit outputs:
the list of HTTP requests handed to the transport, the file-system state
after the run, and the returned error value.
-/

namespace N8n

/-! ### Character classes and basic string helpers (Go `strings`/`regexp`) -/

/-- Whitespace class of Go's `unicode.IsSpace` restricted to the code points
representable here; used by `strings.TrimSpace`.  (Go additionally treats
U+0085 and U+00A0 as space; they are included.) -/
def goSpace (c : Char) : Bool :=
  c = ' ' || c = '\t' || c = '\n' || c = Char.ofNat 11 || c = Char.ofNat 12 ||
  c = '\x0d' || c = Char.ofNat 0x85 || c = Char.ofNat 0xa0

/-- Whitespace class of RE2's `\s`, i.e. `[\t\n\f\r ]`, used by the
`${{ ... }}` regular expression. -/
def reSpace (c : Char) : Bool :=
  c = '\t' || c = '\n' || c = Char.ofNat 12 || c = '\x0d' || c = ' '

/-- First character of an identifier in the `${{VAR}}` pattern: `[A-Za-z_]`. -/
def identStart (c : Char) : Bool :=
  ('A' ≤ c && c ≤ 'Z') || ('a' ≤ c && c ≤ 'z') || c = '_'

/-- Subsequent identifier characters: `[A-Za-z0-9_]`. -/
def identChar (c : Char) : Bool :=
  identStart c || ('0' ≤ c && c ≤ '9')

/-- ASCII uppercase letter test (`'A'..'Z'`, enumerated). -/
def asciiUpper (c : Char) : Bool :=
  match c with
  | 'A' => true | 'B' => true | 'C' => true | 'D' => true | 'E' => true
  | 'F' => true | 'G' => true | 'H' => true | 'I' => true | 'J' => true
  | 'K' => true | 'L' => true | 'M' => true | 'N' => true | 'O' => true
  | 'P' => true | 'Q' => true | 'R' => true | 'S' => true | 'T' => true
  | 'U' => true | 'V' => true | 'W' => true | 'X' => true | 'Y' => true
  | 'Z' => true
  | _ => false

/-- ASCII fragment of Go's `strings.ToLower` on a single character
(`'A'..'Z'` map to `'a'..'z'`, everything else is fixed).  Go also lowercases
non-ASCII letters; the theorems that rely on this function carry an ASCII
hypothesis on the relevant string. -/
def asciiLowerChar (c : Char) : Char :=
  match c with
  | 'A' => 'a' | 'B' => 'b' | 'C' => 'c' | 'D' => 'd' | 'E' => 'e'
  | 'F' => 'f' | 'G' => 'g' | 'H' => 'h' | 'I' => 'i' | 'J' => 'j'
  | 'K' => 'k' | 'L' => 'l' | 'M' => 'm' | 'N' => 'n' | 'O' => 'o'
  | 'P' => 'p' | 'Q' => 'q' | 'R' => 'r' | 'S' => 's' | 'T' => 't'
  | 'U' => 'u' | 'V' => 'v' | 'W' => 'w' | 'X' => 'x' | 'Y' => 'y'
  | 'Z' => 'z'
  | d => d

/-- `strings.ToLower` (ASCII fragment). -/
def lowerGo (s : String) : String :=
  ⟨s.data.map asciiLowerChar⟩

/-- `strings.TrimSpace` on the character list. -/
def trimGoChars (cs : List Char) : List Char :=
  ((cs.dropWhile goSpace).reverse.dropWhile goSpace).reverse

/-- `strings.TrimSpace`. -/
def trimGo (s : String) : String :=
  ⟨trimGoChars s.data⟩

/-- `strings.TrimRight(s, "/")`: drop every trailing `'/'`. -/
def trimRightSlash (s : String) : String :=
  ⟨(s.data.reverse.dropWhile (fun c => c = '/')).reverse⟩

/-- `strings.Trim(s, "\"")`: drop leading and trailing `'"'` characters. -/
def trimQuotes (s : String) : String :=
  ⟨((s.data.dropWhile (fun c => c = '"')).reverse.dropWhile
      (fun c => c = '"')).reverse⟩

/-- Boolean prefix test on character lists (`strings.HasPrefix`). -/
def hasPrefixChars : List Char → List Char → Bool
  | [], _ => true
  | _ :: _, [] => false
  | p :: ps, c :: cs => p = c && hasPrefixChars ps cs

/-- `strings.HasPrefix`. -/
def hasPrefixGo (s pat : String) : Bool :=
  hasPrefixChars pat.data s.data

/-- `strings.HasSuffix`. -/
def hasSuffixGo (s pat : String) : Bool :=
  hasPrefixChars pat.data.reverse s.data.reverse

/-- Substring test on character lists (`strings.Contains`). -/
def hasSubstr : List Char → List Char → Bool
  | [], pat => pat.isEmpty
  | c :: rest, pat => hasPrefixChars pat (c :: rest) || hasSubstr rest pat

/-- `strings.Contains`. -/
def containsGo (s pat : String) : Bool :=
  hasSubstr s.data pat.data

/-- `strings.Split(s, "\n")` on character lists. -/
def splitNlChars : List Char → List (List Char)
  | [] => [[]]
  | c :: rest =>
    if c = '\n' then [] :: splitNlChars rest
    else
      match splitNlChars rest with
      | [] => [[c]]
      | h :: t => (c :: h) :: t

/-- `strings.Split(s, "\n")`. -/
def splitNl (s : String) : List String :=
  (splitNlChars s.data).map String.mk

/-- `strings.Join(lines, "\n")`. -/
def joinNl (ls : List String) : String :=
  String.intercalate "\n" ls

/-- `s.drop n` as a plain list operation. -/
def dropChars (s : String) (n : Nat) : String :=
  ⟨s.data.drop n⟩

/-- Drop the last `n` characters. -/
def dropRightChars (s : String) (n : Nat) : String :=
  ⟨s.data.take (s.data.length - n)⟩

/-! ### `injectEnvVariables` (workflows package)

Go source: the regular expression `\${{\s*([A-Za-z_][A-Za-z0-9_]*)\s*}}`
followed by `re.ReplaceAllStringFunc`, replacing a resolved name by its map
value and leaving an unresolved match verbatim.  The scanner below is the
leftmost-match semantics of that regular expression: at each position try to
match `${{` `\s*` identifier `\s*` `}}`; on success emit the replacement and
continue after the match, otherwise emit one character and move on. -/

/-- Try to match `\s* ident \s* }}` at the head of `cs` (the part after an
opening `${{`).  Returns the identifier, the matched characters (after the
`${{`), and the rest of the input. -/
def tryVar (cs : List Char) : Option (List Char × List Char × List Char) :=
  match cs.dropWhile reSpace with
  | [] => none
  | c :: _ =>
    if identStart c then
      if hasPrefixChars ['}', '}']
          (((cs.dropWhile reSpace).dropWhile identChar).dropWhile reSpace) then
        some ((cs.dropWhile reSpace).takeWhile identChar,
              cs.takeWhile reSpace ++ (cs.dropWhile reSpace).takeWhile identChar ++
                ((cs.dropWhile reSpace).dropWhile identChar).takeWhile reSpace ++
                ['}', '}'],
              (((cs.dropWhile reSpace).dropWhile identChar).dropWhile reSpace).drop 2)
      else none
    else none

theorem dropWhile_length_le {α : Type} (p : α → Bool) (l : List α) :
    (l.dropWhile p).length ≤ l.length := by
  induction l with
  | nil => simp
  | cons a l ih =>
    by_cases h : p a <;> simp [List.dropWhile_cons, h] <;> omega

theorem tryVar_rest_length {cs name matched rest}
    (h : tryVar cs = some (name, matched, rest)) : rest.length ≤ cs.length := by
  unfold tryVar at h
  split at h
  · exact absurd h (by simp)
  · split at h
    · split at h
      · simp only [Option.some.injEq, Prod.mk.injEq] at h
        obtain ⟨-, -, hr⟩ := h
        subst hr
        have l1 := dropWhile_length_le reSpace cs
        have l2 := dropWhile_length_le identChar (cs.dropWhile reSpace)
        have l3 := dropWhile_length_le reSpace
          ((cs.dropWhile reSpace).dropWhile identChar)
        have l4 := List.length_drop 2
          (((cs.dropWhile reSpace).dropWhile identChar).dropWhile reSpace)
        omega
      · exact absurd h (by simp)
    · exact absurd h (by simp)

/-- Core scanner of `injectEnvVariables` on character lists. -/
def injectEnvChars (env : List (String × String)) : List Char → List Char
  | [] => []
  | c :: rest =>
    if c = '$' then
      match rest with
      | '{' :: '{' :: r2 =>
        match h : tryVar r2 with
        | some (name, matched, r3) =>
          (match (env.lookup (String.mk name)) with
           | some v => v.data
           | none => '$' :: '{' :: '{' :: matched) ++ injectEnvChars env r3
        | none => c :: injectEnvChars env ('{' :: '{' :: r2)
      | r => c :: injectEnvChars env r
    else c :: injectEnvChars env rest
  termination_by cs => cs.length
  decreasing_by
  · have := tryVar_rest_length h
    simp; omega
  · simp
  · simp
  · simp

/-- `injectEnvVariables` from the workflows package: replace `${{VAR}}`
occurrences using the environment map; unresolved names stay verbatim. -/
def injectEnvVariables (yaml : String) (env : List (String × String)) : String :=
  ⟨injectEnvChars env yaml.data⟩

/-! ### `LoadDotEnv` (utils package) -/

/-- Process one `.env` line into an optional key/value pair:
skip blank lines and `#` comments, split on the first `=`
(`strings.SplitN(line, "=", 2)`), trim the key, trim the value and strip
surrounding double quotes. -/
def dotEnvLine (line : String) : Option (String × String) :=
  let l := trimGo line
  if l = "" || hasPrefixGo l "#" then none
  else if l.data.contains '=' then
    let key := trimGo ⟨l.data.takeWhile (fun c => c ≠ '=')⟩
    let rawVal : List Char := (l.data.dropWhile (fun c => c ≠ '=')).drop 1
    some (key, trimQuotes (trimGo ⟨rawVal⟩))
  else none

/-- Insert with overwrite, mirroring Go's `env[key] = val` map update. -/
def envInsert (env : List (String × String)) (k v : String) : List (String × String) :=
  (env.filter (fun p => p.1 ≠ k)) ++ [(k, v)]

/-- `LoadDotEnv` applied to raw file content: the scanner reads lines
(a trailing `\r` of a `\r\n` line ending is stripped by `bufio.Scanner`). -/
def parseDotEnv (raw : String) : List (String × String) :=
  let strip (l : String) : String :=
    if l.data.getLast? = some '\x0d' then ⟨l.data.dropLast⟩ else l
  (splitNl raw).foldl
    (fun acc l =>
      match dotEnvLine (strip l) with
      | some (k, v) => envInsert acc k v
      | none => acc) []

/-! ### `injectJSCode` (workflows package)

Replaces lines whose trimmed content has the form `jsCode: file(NAME)` by a
YAML block scalar holding the content of the referenced file.  The file is
read relative to the YAML file's directory (`filepath.Join(filepath.Dir
yamlPath, fileName)`); here the reading oracle `rf` is already rooted at that
directory, so it is applied to the extracted file name. -/

/-- The leading-space indentation of a line:
`line[:len(line)-len(strings.TrimLeft(line, " "))]`. -/
def indentation (line : String) : String :=
  ⟨line.data.takeWhile (fun c => c = ' ')⟩

/-- Process one YAML line of `injectJSCode`'s loop body. -/
def processJSLine (rf : String → Option String) (line : String) :
    Except String (List String) :=
  let trimmed := trimGo line
  if hasPrefixGo trimmed "jsCode: file(" && hasSuffixGo trimmed ")" then
    let fileName := dropRightChars (dropChars trimmed ("jsCode: file(" : String).length) 1
    match rf fileName with
    | none => Except.error ("failed to read " ++ fileName ++ ": file does not exist")
    | some js =>
      Except.ok ((indentation line ++ "jsCode: |") ::
        (splitNl js).map (fun jsLine => indentation line ++ "  " ++ jsLine))
  else Except.ok [line]

/-- `injectJSCode`'s loop over the lines of the YAML file. -/
def injectJSLines (rf : String → Option String) : List String → Except String (List String)
  | [] => Except.ok []
  | l :: ls =>
    match processJSLine rf l with
    | Except.error e => Except.error e
    | Except.ok hd =>
      match injectJSLines rf ls with
      | Except.error e => Except.error e
      | Except.ok tl => Except.ok (hd ++ tl)

/-- `injectJSCode` on the YAML text (split on newlines, process each line,
join with newlines). -/
def injectJSCode (rf : String → Option String) (yaml : String) :
    Except String String :=
  match injectJSLines rf (splitNl yaml) with
  | Except.error e => Except.error e
  | Except.ok ls => Except.ok (joinNl ls)

/-! ### Data model: `config.Config` and the entity/action registry -/

/-- `config.Config`: the persisted API token and base URL. -/
structure Config where
  APIToken : String
  BaseURL : String
  deriving DecidableEq, Repr

/-- `entities.Action`: description, whether an ID argument is required, and
an optional example schema.  The long example-payload texts of the two
schemas in the source are elided to a placeholder: only their non-emptiness
is observable (in the `--schema` help path). -/
structure Action where
  Description : String
  NeedsID : Bool
  Schema : String := ""
  deriving DecidableEq, Repr

/-- `entities.Entities`: the static registry, as an association list
(entity name ↦ association list of action name ↦ descriptor). -/
def Entities : List (String × List (String × Action)) :=
  [ ("users",
      [ ("list",   { Description := "List all users", NeedsID := false }),
        ("create", { Description := "Create a new user", NeedsID := false }),
        ("get",    { Description := "Get a user by ID", NeedsID := true }),
        ("update", { Description := "Update a user by ID", NeedsID := true }),
        ("delete", { Description := "Delete a user by ID", NeedsID := true }) ]),
    ("audit",
      [ ("create", { Description := "Create an audit log", NeedsID := false }) ]),
    ("executions",
      [ ("list",   { Description := "List executions", NeedsID := false }),
        ("get",    { Description := "Get an execution by ID", NeedsID := true }),
        ("delete", { Description := "Delete an execution by ID", NeedsID := true }) ]),
    ("workflows",
      [ ("list", { Description := "List workflow instances", NeedsID := false }),
        ("get",  { Description := "Get a workflow instance by ID", NeedsID := true }),
        ("create", { Description := "Create a workflow instance", NeedsID := false,
                     Schema := "<example workflow payload>" }),
        ("update",     { Description := "Update a workflow instance by ID", NeedsID := true }),
        ("delete",     { Description := "Delete a workflow instance by ID", NeedsID := true }),
        ("activate",   { Description := "Activate a workflow instance by ID", NeedsID := true }),
        ("deactivate", { Description := "Deactivate a workflow instance by ID", NeedsID := true }),
        ("preview",    { Description := "Preview a workflow template (with confirmation to save and show diff)", NeedsID := false }),
        ("diff",       { Description := "Show diff between existing and new workflow templates", NeedsID := false }),
        ("deploy",     { Description := "Deploy a workflow instance", NeedsID := false,
                         Schema := "(No schema - uses .out/workflow.json from preview)" }),
        ("rollback",   { Description := "Rollback a workflow instance", NeedsID := false }) ]),
    ("credentials",
      [ ("list", { Description := "List credentials", NeedsID := false }),
        ("create", { Description := "Create a credential", NeedsID := false,
                     Schema := "<example credential payload>" }),
        ("get",    { Description := "Get a credential by ID", NeedsID := true }),
        ("update", { Description := "Update a credential by ID", NeedsID := true }),
        ("delete", { Description := "Delete a credential by ID", NeedsID := true }) ]),
    ("tags",
      [ ("list",   { Description := "List tags", NeedsID := false }),
        ("create", { Description := "Create a tag", NeedsID := false }),
        ("get",    { Description := "Get a tag by ID", NeedsID := true }),
        ("update", { Description := "Update a tag by ID", NeedsID := true }),
        ("delete", { Description := "Delete a tag by ID", NeedsID := true }) ]),
    ("source-control",
      [ ("list",   { Description := "List source control configs", NeedsID := false }),
        ("get",    { Description := "Get a source control config by ID", NeedsID := true }),
        ("update", { Description := "Update a source control config by ID", NeedsID := true }) ]),
    ("variables",
      [ ("list",   { Description := "List variables", NeedsID := false }),
        ("create", { Description := "Create a variable", NeedsID := false }),
        ("get",    { Description := "Get a variable by ID", NeedsID := true }),
        ("update", { Description := "Update a variable by ID", NeedsID := true }),
        ("delete", { Description := "Delete a variable by ID", NeedsID := true }) ]),
    ("projects",
      [ ("list",   { Description := "List projects", NeedsID := false }),
        ("create", { Description := "Create a project", NeedsID := false }),
        ("get",    { Description := "Get a project by ID", NeedsID := true }),
        ("update", { Description := "Update a project by ID", NeedsID := true }),
        ("delete", { Description := "Delete a project by ID", NeedsID := true }) ]) ]

/-- All `(entity, action)` registry pairs whose descriptor requires an ID. -/
def needsIDPairs : List (String × String) :=
  Entities.flatMap (fun ea =>
    (ea.2.filter (fun ad => ad.2.NeedsID)).map (fun ad => (ea.1, ad.1)))

/-- Membership of an `(entity, action)` pair in the static registry. -/
def pairMem (e a : String) : Bool :=
  match Entities.lookup e with
  | some acts => (acts.lookup a).isSome
  | none => false

/-! ### Execution environment

One CLI invocation touches: the local files `workflow.yaml`,
`.out/workflow.json` and `.env`, script files referenced from
`jsCode: file(...)` directives, the external `yq` and `diff`/`colordiff`
processes, standard input (JSON bodies and the y/N prompt), and the HTTP
transport.  All of these are explicit oracles here.  Directory creation and
file writes are modelled as succeeding (their operating-system failure
branches in the source only turn the affected step into an error). -/

/-- An HTTP request as built by `n8nAPIRequest` (method, URL, body). -/
structure Request where
  method : String
  url : String
  body : String
  deriving DecidableEq, Repr

/-- Outcome of one transport round trip: a transport error, or a response
with numeric status code, status line and raw body. -/
inductive HTTPResult where
  | transportErr (msg : String)
  | response (statusCode : Nat) (status : String) (data : String)
  deriving DecidableEq, Repr

/-- The relevant file-system state: content of `workflow.yaml`,
`.out/workflow.json` and `.env` (`none` = the file does not exist). -/
structure FS where
  workflowYaml : Option String
  outWorkflowJson : Option String
  dotEnv : Option String
  deriving DecidableEq, Repr

/-- The ambient environment of one invocation. -/
structure Env where
  fs : FS
  /-- Content of script files referenced by `jsCode: file(NAME)`, looked up
  relative to the YAML file's directory. -/
  scriptFiles : String → Option String
  /-- The external `yq . -` process: YAML text to JSON text, or its error. -/
  yq : String → Except String String
  /-- `RunDiff old new`: `ok` covers both "no differences" and the diff
  tool's exit code 1 ("differences found"); `error` is a genuine failure. -/
  diff : String → String → Except String Unit
  /-- What `utils.ReadStdin()` returns for a JSON-body prompt. -/
  stdinBody : String
  /-- The raw line the y/N save prompt reads. -/
  answer : String
  /-- The HTTP transport. -/
  http : Request → HTTPResult

/-- `n8nAPIRequest`: perform the round trip and classify the status code;
a status `< 200` or `≥ 300` yields an error carrying the status line and the
raw response body, otherwise the raw body is returned.  (The `X-N8N-API-KEY`
and `Content-Type` headers carry `apiKey`; they do not influence the
modelled result.) -/
def n8nAPIRequest (http : Request → HTTPResult) (method url body apiKey : String) :
    Except String String :=
  let _ := apiKey
  match http { method := method, url := url, body := body } with
  | HTTPResult.transportErr e => Except.error e
  | HTTPResult.response code status data =>
    if code < 200 || 300 ≤ code then
      Except.error ("API error: " ++ status ++ "\n" ++ data)
    else Except.ok data

/-- The starter template written by `GenerateStarterWorkflowYAML` (verbatim,
including the leading newline of the Go raw-string literal). -/
def starterWorkflowYAML : String :=
  "\nname: Sample Workflow\nnodes:\n  - id: \"1\"\n    name: Start\n    type: n8n-nodes-base.manualTrigger\n    typeVersion: 1\n    position: [250, 300]\n  - id: \"2\"\n    name: HTTP Request\n    type: n8n-nodes-base.httpRequest\n    typeVersion: 1\n    position: [450, 300]\n    credentials:\n      httpBasicAuth:\n        id: \"credential-id\"\n        name: \"My HTTP Basic Auth\"\n    parameters:\n      url: \"https://jsonplaceholder.typicode.com/posts/1\"\nconnections:\n  Start:\n    main:\n      - - node: HTTP Request\n          type: main\n          index: 0\nsettings: \x7b\x7d\n"

/-- `GenerateStarterWorkflowYAML`: error if `workflow.yaml` already exists,
otherwise write the starter template. -/
def GenerateStarterWorkflowYAML (fs : FS) : Except String Unit × FS :=
  match fs.workflowYaml with
  | some _ => (Except.error "workflow.yaml already exists", fs)
  | none => (Except.ok (), { fs with workflowYaml := some starterWorkflowYAML })

/-! ### `PreviewWorkflowJSONWithPrompt` -/

/-- The YAML text handed to `yq` by the preview flow: read `workflow.yaml`,
inject JS code only when the literal marker `jsCode: file(index.js)` occurs
in it, then substitute `${{VAR}}` placeholders when a `.env` file exists. -/
def previewYamlStr (env : Env) : Except String String :=
  match env.fs.workflowYaml with
  | none => Except.error "workflow.yaml not found"
  | some yamlStr =>
    match
      (if containsGo yamlStr "jsCode: file(index.js)" then
        match injectJSCode env.scriptFiles yamlStr with
        | Except.error e => Except.error ("failed to inject index.js code: " ++ e)
        | Except.ok s => Except.ok s
      else Except.ok yamlStr) with
    | Except.error e => Except.error e
    | Except.ok s1 =>
      Except.ok
        (match env.fs.dotEnv with
         | none => s1
         | some raw => injectEnvVariables s1 (parseDotEnv raw))

/-- The JSON produced by `yq` in the preview flow. -/
def previewPrepared (env : Env) : Except String String :=
  match previewYamlStr env with
  | Except.error e => Except.error e
  | Except.ok s =>
    match env.yq s with
    | Except.error e => Except.error ("yq failed: " ++ e)
    | Except.ok j => Except.ok j

/-- Result of the preview flow: the returned `(confirmed, error)` pair, the
file system afterwards, whether the external diff ran, and whether the y/N
save prompt was reached. -/
structure PreviewOut where
  result : Except String Bool
  fs : FS
  diffInvoked : Bool
  promptReached : Bool
  deriving Repr

/-- The final y/N prompt of the preview flow: lowercase and trim the
answer; on `y`/`yes` write the new JSON to `.out/workflow.json` and return
`true`, otherwise change nothing and return `false`. -/
def promptStage (env : Env) (newJSON : String) (ranDiff : Bool) : PreviewOut :=
  if trimGo (lowerGo env.answer) = "y" || trimGo (lowerGo env.answer) = "yes" then
    { result := Except.ok true,
      fs := { env.fs with outWorkflowJson := some newJSON },
      diffInvoked := ranDiff, promptReached := true }
  else
    { result := Except.ok false, fs := env.fs,
      diffInvoked := ranDiff, promptReached := true }

/-- `PreviewWorkflowJSONWithPrompt`: build the JSON, diff against
`.out/workflow.json` when it exists, then prompt; on a `y`/`yes` answer
(lowercased and trimmed) write the JSON to `.out/workflow.json`. -/
def PreviewWorkflowJSONWithPrompt (env : Env) : PreviewOut :=
  match previewPrepared env with
  | Except.error e =>
    { result := Except.error e, fs := env.fs, diffInvoked := false, promptReached := false }
  | Except.ok newJSON =>
    match env.fs.outWorkflowJson with
    | some oldJSON =>
      match env.diff oldJSON newJSON with
      | Except.error e =>
        { result := Except.error e, fs := env.fs, diffInvoked := true, promptReached := false }
      | Except.ok _ => promptStage env newJSON true
    | none => promptStage env newJSON false

/-- `DiffWorkflowJSON`: requires `workflow.yaml` and `.out/workflow.json`,
converts the YAML with `yq` (no env/JS injection on this path) and runs the
external diff.  Returns the error value and whether the diff ran. -/
def DiffWorkflowJSON (env : Env) : Except String Unit × Bool :=
  match env.fs.workflowYaml with
  | none => (Except.error "workflow.yaml not found", false)
  | some y =>
    match env.fs.outWorkflowJson with
    | none =>
      (Except.error ".out/workflow.json does not exist, please run preview and save the JSON first",
       false)
    | some old =>
      match env.yq y with
      | Except.error e => (Except.error ("yq failed: " ++ e), false)
      | Except.ok newJSON =>
        match env.diff old newJSON with
        | Except.error e => (Except.error e, true)
        | Except.ok _ => (Except.ok (), true)

/-! ### `handleGenericEntityAction` -/

/-- Observable outcome of `handleGenericEntityAction`: the HTTP requests
handed to the transport (in order), the returned error value, the
file-system state afterwards, whether the external diff ran, whether the
save prompt was reached, and whether the `"{entity} delete successful"`
message was printed. -/
structure ActionOut where
  requests : List Request
  result : Except String Unit
  fs : FS
  diffInvoked : Bool
  promptReached : Bool
  deleteSuccessPrinted : Bool
  deriving Repr

/-- Issue one request through `n8nAPIRequest` and finish the action.
`printsDeleteMsg` is true on the `delete` path, whose success message is
printed only when no error was returned. -/
def finishRequest (env : Env) (fs : FS) (method url body apiKey : String)
    (printsDeleteMsg : Bool) : ActionOut :=
  let req : Request := { method := method, url := url, body := body }
  match n8nAPIRequest env.http method url body apiKey with
  | Except.error e =>
    { requests := [req], result := Except.error e, fs := fs,
      diffInvoked := false, promptReached := false, deleteSuccessPrinted := false }
  | Except.ok _ =>
    { requests := [req], result := Except.ok (), fs := fs,
      diffInvoked := false, promptReached := false,
      deleteSuccessPrinted := printsDeleteMsg }

/-- An outcome with no request and no file-system change. -/
def noRequest (env : Env) (r : Except String Unit) : ActionOut :=
  { requests := [], result := r, fs := env.fs,
    diffInvoked := false, promptReached := false, deleteSuccessPrinted := false }

/-- `handleGenericEntityAction`: build `basePath` from the lowercased base
URL, branch on the action name, and either perform a local workflow
operation or send one HTTP request.  `params.headD ""` stands for the Go
read of `params[0]`, which callers only reach with a non-empty parameter
list (the `NeedsID` guard). -/
def handleGenericEntityAction (entity action : String) (params : List String)
    (cfg : Config) (env : Env) : ActionOut :=
  let basePath := lowerGo cfg.BaseURL ++ "/api/v1/" ++ entity
  match action with
  | "list" => finishRequest env env.fs "GET" basePath "" cfg.APIToken false
  | "get" =>
    finishRequest env env.fs "GET" (basePath ++ "/" ++ params.headD "") "" cfg.APIToken false
  | "create" =>
    if entity = "workflows" then
      let (r, fs') := GenerateStarterWorkflowYAML env.fs
      { requests := [], result := r, fs := fs',
        diffInvoked := false, promptReached := false, deleteSuccessPrinted := false }
    else
      let body :=
        if 2 ≤ params.length && params.headD "" = "--data" then params.getD 1 ""
        else env.stdinBody
      finishRequest env env.fs "POST" basePath body cfg.APIToken false
  | "update" =>
    match params with
    | [] => noRequest env (Except.error "missing ID for update")
    | id :: _ =>
      let body :=
        if 3 ≤ params.length && params.getD 1 "" = "--data" then params.getD 2 ""
        else env.stdinBody
      finishRequest env env.fs "PATCH" (basePath ++ "/" ++ id) body cfg.APIToken false
  | "delete" =>
    finishRequest env env.fs "DELETE" (basePath ++ "/" ++ params.headD "") "" cfg.APIToken true
  | "preview" =>
    if entity = "workflows" then
      let p := PreviewWorkflowJSONWithPrompt env
      { requests := [],
        result := (match p.result with
                   | Except.error e => Except.error e
                   | Except.ok _ => Except.ok ()),
        fs := p.fs, diffInvoked := p.diffInvoked, promptReached := p.promptReached,
        deleteSuccessPrinted := false }
    else noRequest env (Except.error ("preview not supported for " ++ entity))
  | "diff" =>
    if entity = "workflows" then
      let (r, ran) := DiffWorkflowJSON env
      { requests := [], result := r, fs := env.fs, diffInvoked := ran,
        promptReached := false, deleteSuccessPrinted := false }
    else noRequest env (Except.error ("diff not supported for " ++ entity))
  | "deploy" =>
    if entity = "workflows" then
      let p := PreviewWorkflowJSONWithPrompt env
      match p.result with
      | Except.error e =>
        { requests := [], result := Except.error e, fs := p.fs,
          diffInvoked := p.diffInvoked, promptReached := p.promptReached,
          deleteSuccessPrinted := false }
      | Except.ok false =>
        { requests := [], result := Except.ok (), fs := p.fs,
          diffInvoked := p.diffInvoked, promptReached := p.promptReached,
          deleteSuccessPrinted := false }
      | Except.ok true =>
        match p.fs.outWorkflowJson with
        | none =>
          { requests := [], result := Except.error "could not read .out/workflow.json",
            fs := p.fs, diffInvoked := p.diffInvoked, promptReached := p.promptReached,
            deleteSuccessPrinted := false }
        | some jsonBytes =>
          let out := finishRequest env p.fs "POST" basePath jsonBytes cfg.APIToken false
          { out with diffInvoked := p.diffInvoked, promptReached := p.promptReached }
    else noRequest env (Except.error ("deploy not supported for " ++ entity))
  | "activate" =>
    finishRequest env env.fs "POST"
      (basePath ++ "/" ++ params.headD "" ++ "/" ++ action) "" cfg.APIToken false
  | "deactivate" =>
    finishRequest env env.fs "POST"
      (basePath ++ "/" ++ params.headD "" ++ "/" ++ action) "" cfg.APIToken false
  | _ =>
    noRequest env
      (Except.error ("action " ++ action ++ " not implemented for entity " ++ entity))

/-! ### `HandleEntityCommand` -/

/-- Outcome of `HandleEntityCommand`: a usage error printed before any
dispatch (the process exits non-zero), a help or schema page, or a
dispatched action. -/
inductive CmdOut where
  | usageErr (msg : String)
  | helpShown
  | schemaShown (text : String)
  | dispatched (out : ActionOut)
  deriving Repr

/-- The HTTP requests sent during the whole command. -/
def cmdRequests : CmdOut → List Request
  | CmdOut.dispatched out => out.requests
  | _ => []

/-- `HandleEntityCommand`: validate the action against the registry entry
and dispatch.  An action whose descriptor has `NeedsID` and fewer than two
arguments fails with a usage error before `handleGenericEntityAction` is
ever called. -/
def HandleEntityCommand (entity : String) (args : List String)
    (actions : List (String × Action)) (cfg : Config) (env : Env) : CmdOut :=
  match args with
  | [] => CmdOut.usageErr (entity ++ " requires an action. Use --help for available actions.")
  | action :: _ =>
    let showSchema := args.contains "--schema"
    if action = "--help" || action = "-h" then CmdOut.helpShown
    else if showSchema then
      match actions.lookup action with
      | none => CmdOut.usageErr ("Unknown action for " ++ entity ++ ": " ++ action)
      | some a =>
        CmdOut.schemaShown
          (if a.Schema = "" then
            "No schema available for action " ++ action ++ " on entity " ++ entity
          else a.Schema)
    else
      match actions.lookup action with
      | none => CmdOut.usageErr ("Unknown action for " ++ entity ++ ": " ++ action)
      | some a =>
        if a.NeedsID && args.length < 2 then
          CmdOut.usageErr ("Action '" ++ action ++ "' requires an ID parameter")
        else
          CmdOut.dispatched (handleGenericEntityAction entity action args.tail cfg env)

/-! ### `HandleLogin` -/

/-- Outcome of the login flow: failure before persisting, or the `Config`
value handed to `SaveConfig`. -/
inductive LoginOut where
  | err
  | saved (cfg : Config)
  deriving DecidableEq, Repr

/-- The base URL after flag/prompt resolution: the `--base-url` flag if
non-empty, else the first stdin line, trimmed. -/
def finalBase (baseURLFlag : String) (stdin : List String) : String :=
  if baseURLFlag = "" then trimGo (stdin.headD "") else baseURLFlag

/-- The stdin lines remaining for the token prompt (the base-URL prompt
consumes one line only when the flag was empty). -/
def tokenStdin (baseURLFlag : String) (stdin : List String) : List String :=
  if baseURLFlag = "" then stdin.tail else stdin

/-- The token after flag/prompt resolution. -/
def finalToken (baseURLFlag tokenFlag : String) (stdin : List String) : String :=
  if tokenFlag = "" then trimGo ((tokenStdin baseURLFlag stdin).headD "") else tokenFlag

/-- `HandleLogin`: resolve base URL and token from flags or interactive
input; fail when either is empty, otherwise persist the token and the base
URL with its trailing `/` characters stripped. -/
def HandleLogin (baseURLFlag tokenFlag : String) (stdin : List String) : LoginOut :=
  let b := finalBase baseURLFlag stdin
  let t := finalToken baseURLFlag tokenFlag stdin
  if t = "" || b = "" then LoginOut.err
  else LoginOut.saved { APIToken := t, BaseURL := trimRightSlash b }

/-! ### Concrete sample data used by the witness instances -/

/-- A sample persisted configuration (lowercase ASCII base URL). -/
def cfg0 : Config := { APIToken := "tok", BaseURL := "http://x" }

/-- A benign sample environment: a one-line `workflow.yaml`, no cached JSON,
no `.env`, a trivially succeeding converter/diff/transport. -/
def env0 : Env :=
  { fs := { workflowYaml := some "name: x", outWorkflowJson := none, dotEnv := none },
    scriptFiles := fun _ => none,
    yq := fun _ => Except.ok "null",
    diff := fun _ _ => Except.ok (),
    stdinBody := "1",
    answer := "y\n",
    http := fun _ => HTTPResult.response 200 "200 OK" "null" }

/-! ### Claims -/

/-- C3: every HTTP response with status code `< 200` or `≥ 300` makes
`n8nAPIRequest` return an error containing the status line and the raw
body, and the delete/create/update paths of `handleGenericEntityAction`
treat this as failure; in particular `delete` prints its success message
only when no error was returned. -/
theorem spec_C3 (cfg : Config) (env : Env) (e : String) (params : List String)
    (code : Nat) (status data : String)
    (hresp : ∀ r, env.http r = HTTPResult.response code status data)
    (hbad : code < 200 ∨ 300 ≤ code) (hne : e ≠ "workflows") :
    (∀ m u b k, n8nAPIRequest env.http m u b k =
        Except.error ("API error: " ++ status ++ "\n" ++ data)) ∧
    ((handleGenericEntityAction e "delete" params cfg env).result =
        Except.error ("API error: " ++ status ++ "\n" ++ data) ∧
      (handleGenericEntityAction e "delete" params cfg env).deleteSuccessPrinted = false) ∧
    ((handleGenericEntityAction e "create" params cfg env).result =
        Except.error ("API error: " ++ status ++ "\n" ++ data)) ∧
    (∀ id rest, (handleGenericEntityAction e "update" (id :: rest) cfg env).result =
        Except.error ("API error: " ++ status ++ "\n" ++ data)) ∧
    (∀ (env2 : Env) (params2 : List String),
      (handleGenericEntityAction e "delete" params2 cfg env2).deleteSuccessPrinted = true →
      (handleGenericEntityAction e "delete" params2 cfg env2).result = Except.ok ()) := by
  have hbadb : ∀ c : Nat, c = code →
      (decide (c < 200) || decide (300 ≤ c)) = true := by
    rintro c rfl
    rcases hbad with h | h <;> simp [h]
  have hreq : ∀ m u b k, n8nAPIRequest env.http m u b k =
      Except.error ("API error: " ++ status ++ "\n" ++ data) := by
    intro m u b k
    unfold n8nAPIRequest
    rw [hresp]
    simp [hbadb code rfl]
  refine ⟨hreq, ⟨?_, ?_⟩, ?_, ?_, ?_⟩
  · simp [handleGenericEntityAction, finishRequest, hreq]
  · simp [handleGenericEntityAction, finishRequest, hreq]
  · simp [handleGenericEntityAction, finishRequest, hreq, hne]
  · intro id rest
    simp [handleGenericEntityAction, finishRequest, hreq]
  · intro env2 params2 hprinted
    by_cases hok : (handleGenericEntityAction e "delete" params2 cfg env2).result = Except.ok ()
    · exact hok
    · exfalso
      revert hprinted hok
      simp only [handleGenericEntityAction, finishRequest]
      split <;> simp

/-- C3 witness: a concrete 404 response is classified as an error and the
delete path does not print success. -/
theorem spec_C3_witness :
    (handleGenericEntityAction "users" "delete" ["7"] cfg0
        { env0 with http := fun _ => HTTPResult.response 404 "404 Not Found" "gone" }).result =
      Except.error ("API error: " ++ "404 Not Found" ++ "\n" ++ "gone") ∧
    (handleGenericEntityAction "users" "delete" ["7"] cfg0
        { env0 with http := fun _ => HTTPResult.response 404 "404 Not Found" "gone" }).deleteSuccessPrinted
      = false :=
  (spec_C3 cfg0 { env0 with http := fun _ => HTTPResult.response 404 "404 Not Found" "gone" }
    "users" ["7"] 404 "404 Not Found" "gone" (fun _ => rfl) (by decide) (by decide)).2.1

/-- C5: the login flow fails exactly when the resolved token or base URL is
empty, and otherwise persists the token together with the base URL with its
trailing `/` characters stripped. -/
theorem spec_C5 (bf tf : String) (stdin : List String) :
    (HandleLogin bf tf stdin = LoginOut.err ↔
      (finalToken bf tf stdin = "" ∨ finalBase bf stdin = "")) ∧
    (finalToken bf tf stdin ≠ "" → finalBase bf stdin ≠ "" →
      HandleLogin bf tf stdin =
        LoginOut.saved { APIToken := finalToken bf tf stdin,
                         BaseURL := trimRightSlash (finalBase bf stdin) }) := by
  constructor
  · unfold HandleLogin
    by_cases ht : finalToken bf tf stdin = "" <;>
      by_cases hb : finalBase bf stdin = "" <;> simp [ht, hb]
  · intro ht hb
    unfold HandleLogin
    simp [ht, hb]

/-- C5 witness: an empty interactive token fails; a full interactive login
strips the trailing slashes of the base URL. -/
theorem spec_C5_witness :
    HandleLogin "" "" ["http://X//\n", "\n"] = LoginOut.err ∧
    HandleLogin "" "" ["http://X//\n", "tok\n"] =
      LoginOut.saved { APIToken := "tok", BaseURL := "http://X" } := by
  constructor
  · exact (spec_C5 "" "" ["http://X//\n", "\n"]).1.mpr (Or.inl (by decide))
  · have h := (spec_C5 "" "" ["http://X//\n", "tok\n"]).2 (by decide) (by decide)
    exact h.trans (by decide)

/-- C10: the workflows `create` action performs no network call; it writes
the starter `workflow.yaml` exactly when no such file exists, and when the
file exists it returns an error and leaves the content unchanged. -/
theorem spec_C10 (cfg : Config) (env : Env) (params : List String) :
    (handleGenericEntityAction "workflows" "create" params cfg env).requests = [] ∧
    (env.fs.workflowYaml = none →
      (handleGenericEntityAction "workflows" "create" params cfg env).fs.workflowYaml =
          some starterWorkflowYAML ∧
      (handleGenericEntityAction "workflows" "create" params cfg env).result = Except.ok ()) ∧
    (∀ c, env.fs.workflowYaml = some c →
      (handleGenericEntityAction "workflows" "create" params cfg env).fs.workflowYaml = some c ∧
      (handleGenericEntityAction "workflows" "create" params cfg env).result =
        Except.error "workflow.yaml already exists") := by
  refine ⟨?_, ?_, ?_⟩
  · cases henv : env.fs.workflowYaml <;>
      simp [handleGenericEntityAction, GenerateStarterWorkflowYAML, henv]
  · intro hnone
    simp [handleGenericEntityAction, GenerateStarterWorkflowYAML, hnone]
  · intro c hc
    simp [handleGenericEntityAction, GenerateStarterWorkflowYAML, hc]

/-- C10 witness: with no `workflow.yaml` the starter file is written and no
request is sent; with an existing file the content is kept and an error is
returned. -/
theorem spec_C10_witness :
    (handleGenericEntityAction "workflows" "create" [] cfg0
        { env0 with fs := { workflowYaml := none, outWorkflowJson := none, dotEnv := none } }).requests = [] ∧
    (handleGenericEntityAction "workflows" "create" [] cfg0
        { env0 with fs := { workflowYaml := none, outWorkflowJson := none, dotEnv := none } }).fs.workflowYaml =
      some starterWorkflowYAML ∧
    (handleGenericEntityAction "workflows" "create" [] cfg0 env0).result =
      Except.error "workflow.yaml already exists" := by
  have h1 := spec_C10 cfg0
    { env0 with fs := { workflowYaml := none, outWorkflowJson := none, dotEnv := none } } []
  have h2 := spec_C10 cfg0 env0 []
  exact ⟨h1.1, (h1.2.1 rfl).1, (h2.2.2 "name: x" rfl).2⟩

/-- C8: when no cached `.out/workflow.json` exists and the preview pipeline
produced its JSON, the diff step is skipped and the flow still reaches the
y/N save prompt. -/
theorem spec_C8 (env : Env) (j : String) (hold : env.fs.outWorkflowJson = none)
    (hprep : previewPrepared env = Except.ok j) :
    (PreviewWorkflowJSONWithPrompt env).diffInvoked = false ∧
    (PreviewWorkflowJSONWithPrompt env).promptReached = true := by
  unfold PreviewWorkflowJSONWithPrompt
  simp only [hprep, hold]
  unfold promptStage
  split <;> simp

/-- C8 witness: the sample environment has no cached JSON and a working
converter, and its preview skips the diff but reaches the prompt. -/
theorem spec_C8_witness :
    (PreviewWorkflowJSONWithPrompt env0).diffInvoked = false ∧
    (PreviewWorkflowJSONWithPrompt env0).promptReached = true :=
  spec_C8 env0 "null" rfl rfl

theorem preview_declined (env : Env)
    (hn : trimGo (lowerGo env.answer) ≠ "y")
    (hn2 : trimGo (lowerGo env.answer) ≠ "yes") :
    (PreviewWorkflowJSONWithPrompt env).result ≠ Except.ok true ∧
    (PreviewWorkflowJSONWithPrompt env).fs = env.fs := by
  unfold PreviewWorkflowJSONWithPrompt
  split
  · simp
  · split
    · split
      · simp
      · simp [promptStage, hn, hn2]
    · simp [promptStage, hn, hn2]

/-- C4: in the deploy flow, if the user declines the confirmation prompt
(the normalized answer is neither `y` nor `yes`), no HTTP request is made
and `.out/workflow.json` is neither created nor modified. -/
theorem spec_C4 (cfg : Config) (env : Env) (params : List String)
    (hn : trimGo (lowerGo env.answer) ≠ "y")
    (hn2 : trimGo (lowerGo env.answer) ≠ "yes") :
    (handleGenericEntityAction "workflows" "deploy" params cfg env).requests = [] ∧
    (handleGenericEntityAction "workflows" "deploy" params cfg env).fs.outWorkflowJson =
      env.fs.outWorkflowJson := by
  obtain ⟨h1, h2⟩ := preview_declined env hn hn2
  rcases hp : (PreviewWorkflowJSONWithPrompt env).result with e | b
  · simp [handleGenericEntityAction, hp, h2]
  · cases b
    · simp [handleGenericEntityAction, hp, h2]
    · exact absurd hp h1

/-- C4 witness: answering `n` to the deploy prompt sends nothing and leaves
the cache file alone. -/
theorem spec_C4_witness :
    (handleGenericEntityAction "workflows" "deploy" [] cfg0
        { env0 with answer := "n\n" }).requests = [] ∧
    (handleGenericEntityAction "workflows" "deploy" [] cfg0
        { env0 with answer := "n\n" }).fs.outWorkflowJson = none :=
  spec_C4 cfg0 { env0 with answer := "n\n" } [] (by decide) (by decide)

/-- C2: every registry action that needs an ID, invoked without an ID,
fails with a usage error before `handleGenericEntityAction` runs, so no
HTTP request is constructed or sent. -/
theorem spec_C2 (e a : String) (hmem : (e, a) ∈ needsIDPairs)
    (cfg : Config) (env : Env) :
    HandleEntityCommand e [a] ((Entities.lookup e).getD []) cfg env =
      CmdOut.usageErr ("Action '" ++ a ++ "' requires an ID parameter") ∧
    cmdRequests (HandleEntityCommand e [a] ((Entities.lookup e).getD []) cfg env) = [] := by
  fin_cases hmem <;> exact ⟨rfl, rfl⟩

/-- C2 witness: `users get` without an ID is rejected with no request. -/
theorem spec_C2_witness :
    HandleEntityCommand "users" ["get"] ((Entities.lookup "users").getD []) cfg0 env0 =
      CmdOut.usageErr ("Action '" ++ "get" ++ "' requires an ID parameter") ∧
    cmdRequests (HandleEntityCommand "users" ["get"] ((Entities.lookup "users").getD []) cfg0 env0)
      = [] :=
  spec_C2 "users" "get" (by decide) cfg0 env0

/-- Projection of the emitted requests to (method, URL) pairs. -/
def reqMU (out : ActionOut) : List (String × String) :=
  out.requests.map (fun r => (r.method, r.url))

theorem promptStage_cache (env : Env) (nj : String) (b : Bool)
    (h : (promptStage env nj b).result = Except.ok true) :
    (promptStage env nj b).fs.outWorkflowJson = some nj := by
  unfold promptStage at h ⊢
  split at h
  · next hc => rw [if_pos hc]
  · simp at h

theorem preview_confirmed_cache (env : Env)
    (h : (PreviewWorkflowJSONWithPrompt env).result = Except.ok true) :
    ∃ j, (PreviewWorkflowJSONWithPrompt env).fs.outWorkflowJson = some j := by
  unfold PreviewWorkflowJSONWithPrompt at h ⊢
  rcases hprep : previewPrepared env with e | nj <;> simp only [hprep] at h ⊢
  · simp at h
  · rcases hold : env.fs.outWorkflowJson with _ | old <;> simp only [hold] at h ⊢
    · exact ⟨nj, promptStage_cache env nj false h⟩
    · rcases hdiff : env.diff old nj with de | du <;> simp only [hdiff] at h ⊢
      · simp at h
      · exact ⟨nj, promptStage_cache env nj true h⟩

/-- C1: for every entity/action pair in the static registry, dispatch
constructs exactly the documented method and URL template (stated for a
base URL that is lowercase ASCII, the form in which it appears verbatim in
the URL): `list` GET `{baseURL}/api/v1/{entity}`; `get` GET `.../{id}`;
`create` (non-workflows) POST `{baseURL}/api/v1/{entity}`; `update` PATCH
`.../{id}`; `delete` DELETE `.../{id}`; `activate`/`deactivate` POST
`.../{id}/{action}`; `deploy` (workflows, after a confirmed preview) POST
`{baseURL}/api/v1/workflows`. -/
theorem spec_C1 (cfg : Config) (env : Env) (e id : String) (rest params : List String)
    (hascii : ∀ c ∈ cfg.BaseURL.data, c.toNat < 128)
    (hlow : lowerGo cfg.BaseURL = cfg.BaseURL) :
    (pairMem e "list" = true →
      reqMU (handleGenericEntityAction e "list" params cfg env) =
        [("GET", cfg.BaseURL ++ "/api/v1/" ++ e)]) ∧
    (pairMem e "get" = true →
      reqMU (handleGenericEntityAction e "get" (id :: rest) cfg env) =
        [("GET", cfg.BaseURL ++ "/api/v1/" ++ e ++ "/" ++ id)]) ∧
    (pairMem e "create" = true → e ≠ "workflows" →
      reqMU (handleGenericEntityAction e "create" params cfg env) =
        [("POST", cfg.BaseURL ++ "/api/v1/" ++ e)]) ∧
    (pairMem e "update" = true →
      reqMU (handleGenericEntityAction e "update" (id :: rest) cfg env) =
        [("PATCH", cfg.BaseURL ++ "/api/v1/" ++ e ++ "/" ++ id)]) ∧
    (pairMem e "delete" = true →
      reqMU (handleGenericEntityAction e "delete" (id :: rest) cfg env) =
        [("DELETE", cfg.BaseURL ++ "/api/v1/" ++ e ++ "/" ++ id)]) ∧
    (pairMem e "activate" = true →
      reqMU (handleGenericEntityAction e "activate" (id :: rest) cfg env) =
        [("POST", cfg.BaseURL ++ "/api/v1/" ++ e ++ "/" ++ id ++ "/" ++ "activate")]) ∧
    (pairMem e "deactivate" = true →
      reqMU (handleGenericEntityAction e "deactivate" (id :: rest) cfg env) =
        [("POST", cfg.BaseURL ++ "/api/v1/" ++ e ++ "/" ++ id ++ "/" ++ "deactivate")]) ∧
    ((PreviewWorkflowJSONWithPrompt env).result = Except.ok true →
      reqMU (handleGenericEntityAction "workflows" "deploy" params cfg env) =
        [("POST", cfg.BaseURL ++ "/api/v1/workflows")]) := by
  have hfin : ∀ fs m u b p, reqMU (finishRequest env fs m u b cfg.APIToken p) =
      [(m, u)] := by
    intro fs m u b p
    unfold finishRequest reqMU
    split <;> simp
  refine ⟨?_, ?_, ?_, ?_, ?_, ?_, ?_, ?_⟩
  · intro _
    simp [handleGenericEntityAction, hfin, hlow]
  · intro _
    simp [handleGenericEntityAction, hfin, hlow]
  · intro _ hne
    simp [handleGenericEntityAction, hfin, hlow, hne]
  · intro _
    simp [handleGenericEntityAction, hfin, hlow]
  · intro _
    simp [handleGenericEntityAction, hfin, hlow]
  · intro _
    simp [handleGenericEntityAction, hfin, hlow]
  · intro _
    simp [handleGenericEntityAction, hfin, hlow]
  · intro hconf
    obtain ⟨j, hj⟩ := preview_confirmed_cache env hconf
    have hlit : (("/api/v1/" : String) ++ "workflows") = "/api/v1/workflows" := rfl
    simp only [handleGenericEntityAction, hconf, hj]
    unfold reqMU finishRequest
    split
    · split <;> simp [hlow, String.append_assoc, hlit]
    · simp_all

/-- C1 witness: concrete dispatches for `users get` and
`workflows activate` at a lowercase base URL. -/
theorem spec_C1_witness :
    reqMU (handleGenericEntityAction "users" "get" ["7"] cfg0 env0) =
      [("GET", "http://x/api/v1/users/7")] ∧
    reqMU (handleGenericEntityAction "workflows" "activate" ["9"] cfg0 env0) =
      [("POST", "http://x/api/v1/workflows/9/activate")] := by
  have h1 := (spec_C1 cfg0 env0 "users" "7" [] [] (by decide) (by decide)).2.1 (by decide)
  have h2 := (spec_C1 cfg0 env0 "workflows" "9" [] [] (by decide) (by decide)).2.2.2.2.2.1
    (by decide)
  exact ⟨h1.trans (by decide), h2.trans (by decide)⟩

theorem identChar_not_reSpace (c : Char) (h : identChar c = true) :
    reSpace c = false := by
  rcases hb : reSpace c with _ | _
  · rfl
  · exfalso
    unfold reSpace at hb
    simp only [Bool.or_eq_true, decide_eq_true_eq] at hb
    rcases hb with (((h1 | h1) | h1) | h1) | h1 <;> subst h1 <;>
      exact absurd h (by decide)

theorem dropWhile_all_append {α : Type} (p : α → Bool) (l r : List α)
    (h : ∀ c ∈ l, p c = true) : (l ++ r).dropWhile p = r.dropWhile p := by
  induction l with
  | nil => rfl
  | cons a t ih =>
    rw [List.cons_append, List.dropWhile_cons_of_pos (h a (by simp))]
    exact ih (fun c hc => h c (by simp [hc]))

theorem takeWhile_all_append {α : Type} (p : α → Bool) (l r : List α)
    (h : ∀ c ∈ l, p c = true) : (l ++ r).takeWhile p = l ++ r.takeWhile p := by
  induction l with
  | nil => rfl
  | cons a t ih =>
    rw [List.cons_append, List.takeWhile_cons_of_pos (h a (by simp)),
      ih (fun c hc => h c (by simp [hc])), List.cons_append]

theorem tryVar_ident (name suf : List Char) (hne : name ≠ [])
    (hstart : identStart (name.headD ' ') = true)
    (hall : ∀ c ∈ name, identChar c = true) :
    tryVar (name ++ '}' :: '}' :: suf) = some (name, name ++ ['}', '}'], suf) := by
  obtain ⟨n0, ntl, rfl⟩ : ∃ a l, name = a :: l := by
    cases name with
    | nil => exact absurd rfl hne
    | cons a l => exact ⟨a, l, rfl⟩
  have h0 : identChar n0 = true := hall n0 (by simp)
  have hs0 : reSpace n0 = false := identChar_not_reSpace n0 h0
  have hstart' : identStart n0 = true := by simpa using hstart
  have hallt : ∀ c ∈ ntl, identChar c = true := fun c hc => hall c (by simp [hc])
  have hdropRe : (n0 :: (ntl ++ '}' :: '}' :: suf)).dropWhile reSpace =
      n0 :: (ntl ++ '}' :: '}' :: suf) :=
    List.dropWhile_cons_of_neg (by simp [hs0])
  have htakeRe : (n0 :: (ntl ++ '}' :: '}' :: suf)).takeWhile reSpace = [] :=
    List.takeWhile_cons_of_neg (by simp [hs0])
  have hdropId : (n0 :: (ntl ++ '}' :: '}' :: suf)).dropWhile identChar =
      '}' :: '}' :: suf := by
    rw [List.dropWhile_cons_of_pos h0, dropWhile_all_append identChar ntl _ hallt,
      List.dropWhile_cons_of_neg (by decide)]
  have htakeId : (n0 :: (ntl ++ '}' :: '}' :: suf)).takeWhile identChar = n0 :: ntl := by
    rw [List.takeWhile_cons_of_pos h0, takeWhile_all_append identChar ntl _ hallt,
      List.takeWhile_cons_of_neg (by decide)]
    simp
  have hdropRe2 : ('}' :: '}' :: suf).dropWhile reSpace = '}' :: '}' :: suf :=
    List.dropWhile_cons_of_neg (by decide)
  have htakeRe2 : ('}' :: '}' :: suf).takeWhile reSpace = [] :=
    List.takeWhile_cons_of_neg (by decide)
  unfold tryVar
  simp only [List.cons_append, hdropRe, htakeRe, hdropId, htakeId, hdropRe2, htakeRe2,
    hstart', if_true]
  simp [hasPrefixChars]

theorem injectEnvChars_nil (env : List (String × String)) :
    injectEnvChars env [] = [] := by
  conv_lhs => rw [injectEnvChars.eq_def]

theorem injectEnvChars_cons_ne (env : List (String × String)) (c : Char)
    (l : List Char) (hc : c ≠ '$') :
    injectEnvChars env (c :: l) = c :: injectEnvChars env l := by
  conv_lhs => rw [injectEnvChars.eq_def]
  simp [hc]

theorem injectEnvChars_append_no_dollar (env : List (String × String))
    (cs t : List Char) (h : ∀ c ∈ cs, c ≠ '$') :
    injectEnvChars env (cs ++ t) = cs ++ injectEnvChars env t := by
  induction cs with
  | nil => rfl
  | cons a l ih =>
    rw [List.cons_append, injectEnvChars_cons_ne env a _ (h a (by simp)),
      ih (fun c hc => h c (by simp [hc])), List.cons_append]

theorem injectEnvChars_var (env : List (String × String)) (name suf : List Char)
    (hne : name ≠ []) (hstart : identStart (name.headD ' ') = true)
    (hall : ∀ c ∈ name, identChar c = true) :
    injectEnvChars env ('$' :: '{' :: '{' :: (name ++ '}' :: '}' :: suf)) =
      (match env.lookup (String.mk name) with
       | some v => v.data
       | none => '$' :: '{' :: '{' :: (name ++ ['}', '}'])) ++ injectEnvChars env suf := by
  have htv := tryVar_ident name suf hne hstart hall
  simp only [injectEnvChars, htv, if_pos trivial]
  split
  · rename_i n1 m1 r31 heq
    rw [htv] at heq
    injection heq with heq2
    simp only [Prod.mk.injEq] at heq2
    obtain ⟨rfl, rfl, rfl⟩ := heq2
    rfl
  · rename_i heq
    rw [htv] at heq
    exact absurd heq (by simp)

theorem injectEnvChars_id_of_no_dollar (env : List (String × String))
    (cs : List Char) (h : ∀ c ∈ cs, c ≠ '$') : injectEnvChars env cs = cs := by
  have h2 := injectEnvChars_append_no_dollar env cs [] h
  rw [List.append_nil] at h2
  rw [h2, injectEnvChars_nil, List.append_nil]

/-- C6: environment-variable substitution.  For every environment map,
every prefix without a `$`, every identifier `NAME` and every suffix, the
occurrence `${{NAME}}` is replaced by the map's value for `NAME` when
present, and is left verbatim when `NAME` is not a key; the rest of the
input is processed recursively. -/
theorem spec_C6 (env : List (String × String)) (pre name suf : List Char)
    (hpre : ∀ c ∈ pre, c ≠ '$') (hne : name ≠ [])
    (hstart : identStart (name.headD ' ') = true)
    (hall : ∀ c ∈ name, identChar c = true) :
    injectEnvVariables ⟨pre ++ '$' :: '{' :: '{' :: (name ++ '}' :: '}' :: suf)⟩ env =
      ⟨pre ++ ((match env.lookup ⟨name⟩ with
                | some v => v.data
                | none => '$' :: '{' :: '{' :: (name ++ ['}', '}'])) ++
               injectEnvChars env suf)⟩ := by
  unfold injectEnvVariables
  congr 1
  rw [injectEnvChars_append_no_dollar env pre _ hpre,
    injectEnvChars_var env name suf hne hstart hall]

/-- C6 witness: with map `{FOO: bar}`, the input `x=${{FOO}};y` becomes
`x=bar;y`, and an unresolved name stays verbatim. -/
theorem spec_C6_witness :
    injectEnvVariables ⟨"x=".data ++ '$' :: '{' :: '{' :: ("FOO".data ++ '}' :: '}' :: ";y".data)⟩
        [("FOO", "bar")] = "x=bar;y" ∧
    injectEnvVariables ⟨"x=".data ++ '$' :: '{' :: '{' :: ("MISS".data ++ '}' :: '}' :: [])⟩
        [("FOO", "bar")] =
      ⟨"x=".data ++ '$' :: '{' :: '{' :: ("MISS".data ++ ['}', '}'])⟩ := by
  constructor
  · have h := spec_C6 [("FOO", "bar")] "x=".data "FOO".data ";y".data
      (by decide) (by decide) (by decide) (by decide)
    refine h.trans ?_
    rw [injectEnvChars_id_of_no_dollar [("FOO", "bar")] ";y".data (by decide)]
    decide
  · have h := spec_C6 [("FOO", "bar")] "x=".data "MISS".data []
      (by decide) (by decide) (by decide) (by decide)
    refine h.trans ?_
    rw [injectEnvChars_nil]
    decide

theorem hasPrefixChars_self_append (p r : List Char) :
    hasPrefixChars p (p ++ r) = true := by
  induction p with
  | nil => rfl
  | cons a t ih => simp [hasPrefixChars, ih]

theorem processJSLine_match (rf : String → Option String) (line fn js : String)
    (htrim : trimGo line = "jsCode: file(" ++ fn ++ ")")
    (hread : rf fn = some js) :
    processJSLine rf line =
      Except.ok ((indentation line ++ "jsCode: |") ::
        (splitNl js).map (fun jsLine => indentation line ++ "  " ++ jsLine)) := by
  have hdata : (("jsCode: file(" ++ fn ++ ")") : String).data =
      "jsCode: file(".data ++ (fn.data ++ [')']) := by
    rw [String.data_append, String.data_append, List.append_assoc]
  have hlen13 : ("jsCode: file(".data).length = 13 := by decide
  have hp : hasPrefixGo ("jsCode: file(" ++ fn ++ ")") "jsCode: file(" = true := by
    unfold hasPrefixGo
    rw [hdata]
    exact hasPrefixChars_self_append _ _
  have hs : hasSuffixGo ("jsCode: file(" ++ fn ++ ")") ")" = true := by
    unfold hasSuffixGo
    rw [hdata]
    rw [show ("jsCode: file(".data ++ (fn.data ++ [')'])).reverse =
        ')' :: (fn.data.reverse ++ "jsCode: file(".data.reverse) by simp]
    simp [hasPrefixChars]
  have hname : dropRightChars
      (dropChars ("jsCode: file(" ++ fn ++ ")") ("jsCode: file(" : String).length) 1 = fn := by
    unfold dropChars dropRightChars
    rw [show (("jsCode: file(" : String).length) = 13 from rfl]
    simp only [hdata]
    rw [List.drop_left' hlen13]
    simp only [List.length_append, List.length_cons, List.length_nil]
    rw [show fn.data.length + (0 + 1) - 1 = fn.data.length by omega]
    rw [List.take_left' rfl]
  unfold processJSLine
  rw [htrim]
  simp only [hp, hs, Bool.and_self, if_true, hname, hread]

theorem injectJSLines_append (rf : String → Option String) (xs ys : List String)
    (xo : List String) (hx : injectJSLines rf xs = Except.ok xo) :
    injectJSLines rf (xs ++ ys) =
      match injectJSLines rf ys with
      | Except.error e => Except.error e
      | Except.ok yo => Except.ok (xo ++ yo) := by
  induction xs generalizing xo with
  | nil =>
    simp only [injectJSLines] at hx
    injection hx with hx
    subst hx
    simp only [List.nil_append]
    split <;> simp_all
  | cons l ls ih =>
    simp only [injectJSLines] at hx
    cases hp : processJSLine rf l with
    | error e => rw [hp] at hx; exact absurd hx (by simp)
    | ok hd =>
      rw [hp] at hx
      cases hls : injectJSLines rf ls with
      | error e => rw [hls] at hx; exact absurd hx (by simp)
      | ok tl =>
        rw [hls] at hx
        injection hx with hx
        subst hx
        rw [List.cons_append]
        have hunf : injectJSLines rf (l :: (ls ++ ys)) =
            match processJSLine rf l with
            | Except.error e => Except.error e
            | Except.ok hd2 =>
              match injectJSLines rf (ls ++ ys) with
              | Except.error e => Except.error e
              | Except.ok tl2 => Except.ok (hd2 ++ tl2) := rfl
        rw [hunf, hp, ih tl hls]
        cases hys : injectJSLines rf ys <;> simp [hys, List.append_assoc]

/-- C7 counterexample: a `workflow.yaml` whose only line is
`jsCode: file(a.js)` (and the referenced file exists) is passed to `yq`
verbatim by the preview flow: without the literal `jsCode: file(index.js)`
marker no injection happens, so the claimed replacement does not occur. -/
def envCex : Env :=
  { fs := { workflowYaml := some "jsCode: file(a.js)", outWorkflowJson := none,
            dotEnv := none },
    scriptFiles := fun n => if n = "a.js" then some "CODE" else none,
    yq := fun s => Except.ok s,
    diff := fun _ _ => Except.ok (),
    stdinBody := "1",
    answer := "n\n",
    http := fun _ => HTTPResult.response 200 "200 OK" "null" }

/-- C7 is false as stated: in the preview flow this matching
`jsCode: file(a.js)` line (with `a.js` readable) is left verbatim in the
YAML handed to the converter, because the flow only injects when the exact
marker `jsCode: file(index.js)` occurs. -/
theorem spec_C7_cex :
    trimGo "jsCode: file(a.js)" = "jsCode: file(" ++ "a.js" ++ ")" ∧
    envCex.scriptFiles "a.js" = some "CODE" ∧
    previewYamlStr envCex = Except.ok "jsCode: file(a.js)" :=
  ⟨by decide, rfl, rfl⟩

/-- C7 (amended): when `injectJSCode` runs (which the preview flow does
exactly when the YAML contains the literal marker `jsCode: file(index.js)`),
every line whose trimmed content is `jsCode: file(x.js)` with `x.js`
readable is replaced by `jsCode: |` at the line's leading-space
indentation, followed by the file content split into lines, each indented
two further spaces; all other lines are kept. -/
theorem spec_C7_amended (rf : String → Option String)
    (pre suf preOut sufOut : List String) (line fn js : String)
    (hpre : injectJSLines rf pre = Except.ok preOut)
    (hsuf : injectJSLines rf suf = Except.ok sufOut)
    (htrim : trimGo line = "jsCode: file(" ++ fn ++ ")")
    (hread : rf fn = some js) :
    injectJSLines rf (pre ++ line :: suf) =
      Except.ok (preOut ++ ((indentation line ++ "jsCode: |") ::
        (splitNl js).map (fun jsLine => indentation line ++ "  " ++ jsLine)) ++ sufOut) := by
  rw [injectJSLines_append rf pre (line :: suf) preOut hpre]
  have hline : injectJSLines rf (line :: suf) =
      Except.ok (((indentation line ++ "jsCode: |") ::
        (splitNl js).map (fun jsLine => indentation line ++ "  " ++ jsLine)) ++ sufOut) := by
    simp only [injectJSLines, processJSLine_match rf line fn js htrim hread, hsuf]
  rw [hline]
  simp [List.append_assoc]

/-- C7 witness: a two-line script file is inlined as an indented block
scalar in place of the matching line, with surrounding lines kept. -/
theorem spec_C7_witness :
    injectJSLines (fun n => if n = "x.js" then some "line1\nline2" else none)
        ["top:", "  jsCode: file(x.js)", "rest"] =
      Except.ok ["top:", "  jsCode: |", "    line1", "    line2", "rest"] := by
  have h := spec_C7_amended (fun n => if n = "x.js" then some "line1\nline2" else none)
    ["top:"] ["rest"] ["top:"] ["rest"] "  jsCode: file(x.js)" "x.js" "line1\nline2"
    rfl rfl (by decide) rfl
  exact h.trans rfl

theorem upper_lower_ne (c : Char) (h : asciiUpper c = true) :
    asciiLowerChar c ≠ c := by
  unfold asciiUpper at h
  split at h <;> first
    | decide
    | exact absurd h (by decide)

theorem map_eq_self_mem {α : Type} (f : α → α) (l : List α) (h : l.map f = l) :
    ∀ x ∈ l, f x = x := by
  induction l with
  | nil => simp
  | cons a t ih =>
    simp only [List.map_cons, List.cons.injEq] at h
    intro x hx
    rcases List.mem_cons.mp hx with rfl | hx
    · exact h.1
    · exact ih h.2 x hx

theorem upperBaseNotUrlHead (b : String) (t : List Char)
    (hup : ∃ c ∈ b.data, asciiUpper c = true) :
    ¬ b.data <+: (b.data.map asciiLowerChar ++ t) := by
  intro hpre
  obtain ⟨c, hcmem, hcup⟩ := hup
  obtain ⟨u, hu⟩ := hpre
  have hlen : b.data.length = (b.data.map asciiLowerChar).length := by simp
  have heq : b.data = b.data.map asciiLowerChar :=
    (List.append_inj hu.symm hlen.symm).1.symm
  have hfix := map_eq_self_mem asciiLowerChar b.data heq.symm c hcmem
  exact upper_lower_ne c hcup hfix

theorem hga_url_shape (cfg : Config) (e a : String) (params : List String)
    (env : Env) :
    ∀ r ∈ (handleGenericEntityAction e a params cfg env).requests,
      ∃ suffix, r.url = (lowerGo cfg.BaseURL ++ "/api/v1/" ++ e) ++ suffix := by
  intro r hr
  have hfin : ∀ fs m u b p, r ∈ (finishRequest env fs m u b cfg.APIToken p).requests →
      r.url = u := by
    intro fs m u b p hmem
    unfold finishRequest at hmem
    split at hmem <;> (simp at hmem; rw [hmem])
  unfold handleGenericEntityAction at hr
  split at hr
  · exact ⟨"", by rw [hfin _ _ _ _ _ hr, String.append_empty]⟩
  · exact ⟨"/" ++ params.headD "", by rw [hfin _ _ _ _ _ hr, String.append_assoc]⟩
  · split at hr
    · simp at hr
    · exact ⟨"", by rw [hfin _ _ _ _ _ hr, String.append_empty]⟩
  · split at hr
    · simp [noRequest] at hr
    · rename_i id tail
      exact ⟨"/" ++ id, by rw [hfin _ _ _ _ _ hr, String.append_assoc]⟩
  · exact ⟨"/" ++ params.headD "", by rw [hfin _ _ _ _ _ hr, String.append_assoc]⟩
  · split at hr <;> simp [noRequest] at hr
  · split at hr <;> simp [noRequest] at hr
  · split at hr
    · rcases hp : (PreviewWorkflowJSONWithPrompt env).result with pe | pb
      · simp only [hp] at hr
        simp at hr
      · cases pb
        · simp only [hp] at hr
          simp at hr
        · rcases hj : (PreviewWorkflowJSONWithPrompt env).fs.outWorkflowJson with _ | j
          · simp only [hp, hj] at hr
            simp at hr
          · simp only [hp, hj] at hr
            exact ⟨"", by rw [hfin _ _ _ _ _ hr, String.append_empty]⟩
    · simp [noRequest] at hr
  · exact ⟨"/" ++ params.headD "" ++ "/" ++ "activate",
      by rw [hfin _ _ _ _ _ hr]; simp [String.append_assoc]⟩
  · exact ⟨"/" ++ params.headD "" ++ "/" ++ "deactivate",
      by rw [hfin _ _ _ _ _ hr]; simp [String.append_assoc]⟩
  · simp [noRequest] at hr

/-- C9 is false as stated: the uppercase persisted base URL `HTTP://X` does
appear verbatim inside a request URL when the user supplies it as the ID
parameter, even though the URL prefix is lowercased. -/
theorem spec_C9_cex :
    (∃ c ∈ ("HTTP://X" : String).data, asciiUpper c = true) ∧
    (handleGenericEntityAction "users" "get" ["HTTP://X"]
        { APIToken := "tok", BaseURL := "HTTP://X" } env0).requests =
      [{ method := "GET", url := "http://x/api/v1/users/HTTP://X", body := "" }] ∧
    containsGo "http://x/api/v1/users/HTTP://X" "HTTP://X" = true :=
  ⟨by decide, rfl, by decide⟩

/-- C9 (amended): every dispatched request URL starts with
`lowercase(cfg.BaseURL) ++ "/api/v1/" ++ entity`; a base URL containing an
ASCII uppercase letter is therefore never a prefix of any request URL
(though it can still occur inside a user-supplied ID, which is appended
unchanged — the `get` URL is exactly `prefix ++ "/" ++ id`); login persists
the base URL with its original casing, only stripping trailing slashes. -/
theorem spec_C9_amended :
    (∀ (cfg : Config) (e a : String) (params : List String) (env : Env),
      ∀ r ∈ (handleGenericEntityAction e a params cfg env).requests,
        (∃ suffix, r.url = (lowerGo cfg.BaseURL ++ "/api/v1/" ++ e) ++ suffix) ∧
        ((∃ c ∈ cfg.BaseURL.data, asciiUpper c = true) →
          ¬ cfg.BaseURL.data <+: r.url.data)) ∧
    (∀ (cfg : Config) (e id : String) (rest : List String) (env : Env),
      reqMU (handleGenericEntityAction e "get" (id :: rest) cfg env) =
        [("GET", lowerGo cfg.BaseURL ++ "/api/v1/" ++ e ++ "/" ++ id)]) ∧
    (∀ (bf tf : String) (stdin : List String) (c : Config),
      HandleLogin bf tf stdin = LoginOut.saved c →
      c.BaseURL = trimRightSlash (finalBase bf stdin)) := by
  refine ⟨?_, ?_, ?_⟩
  · intro cfg e a params env r hr
    obtain ⟨suffix, hs⟩ := hga_url_shape cfg e a params env r hr
    refine ⟨⟨suffix, hs⟩, ?_⟩
    intro hup
    have hdata : r.url.data =
        cfg.BaseURL.data.map asciiLowerChar ++
          (("/api/v1/".data ++ e.data) ++ suffix.data) := by
      rw [hs]
      simp [String.data_append, lowerGo, List.append_assoc]
    rw [hdata]
    exact upperBaseNotUrlHead cfg.BaseURL _ hup
  · intro cfg e id rest env
    have hfin : ∀ fs m u b p, reqMU (finishRequest env fs m u b cfg.APIToken p) =
        [(m, u)] := by
      intro fs m u b p
      unfold finishRequest reqMU
      split <;> simp
    simp [handleGenericEntityAction, hfin]
  · intro bf tf stdin c hsaved
    unfold HandleLogin at hsaved
    cases hb : (decide (finalToken bf tf stdin = "") ||
        decide (finalBase bf stdin = "")) with
    | true => simp [hb] at hsaved
    | false =>
      simp only [hb, Bool.false_eq_true, if_false] at hsaved
      injection hsaved with h
      rw [← h]

/-- C9 witness: a concrete `get` dispatch whose URL is the lowercased base
plus the unchanged ID, and whose uppercase base URL is not a URL prefix. -/
theorem spec_C9_witness :
    reqMU (handleGenericEntityAction "users" "get" ["7"] cfg0 env0) =
      [("GET", "http://x/api/v1/users/7")] ∧
    ¬ ("HTTP://X" : String).data <+:
        ({ method := "GET", url := "http://x/api/v1/users/HTTP://X", body := "" } : Request).url.data := by
  constructor
  · have h := spec_C9_amended.2.1 cfg0 "users" "7" [] env0
    exact h.trans (by decide)
  · have hmem : ({ method := "GET", url := "http://x/api/v1/users/HTTP://X", body := "" } : Request) ∈
        (handleGenericEntityAction "users" "get" ["HTTP://X"]
          { APIToken := "tok", BaseURL := "HTTP://X" } env0).requests := by
      rw [show (handleGenericEntityAction "users" "get" ["HTTP://X"]
          { APIToken := "tok", BaseURL := "HTTP://X" } env0).requests =
        [{ method := "GET", url := "http://x/api/v1/users/HTTP://X", body := "" }] from rfl]
      exact List.mem_singleton.mpr rfl
    exact (spec_C9_amended.1 { APIToken := "tok", BaseURL := "HTTP://X" } "users" "get"
      ["HTTP://X"] env0 _ hmem).2 (by decide)

end N8n
